import Mathlib

/-!
Verification of the family-calendar firmware core (src/esp32/src/main.cpp).

The embedding models the event-ingestion pipeline, the day query and the
day-view layout of `main.cpp` as executable Lean functions.  Arduino
`String` values are modelled as `List Char`; the C `time_t` type is
modelled as `Int` (seconds since the Unix epoch).  The libc functions
`mktime` / `localtime_r` are modelled under the firmware's fixed
UTC-offset configuration (`configTime(TIMEZONE_OFFSET, ...)`) using the
standard civil-calendar conversion (Gregorian, proleptic); the offset is
kept as an explicit parameter `off` everywhere.
-/

namespace FamilyCal

/-! ### Model of the Arduino `String` operations used by `main.cpp` -/

/-- `isspace` as used by Arduino `String::trim`. -/
def isSpaceA (c : Char) : Bool :=
  c = ' ' || c = '\t' || c = '\n' || c = '\x0b' || c = '\x0c' || c = '\r'

/-- Arduino `String::trim`: drop leading and trailing `isspace` characters. -/
def trimA (l : List Char) : List Char :=
  ((l.dropWhile isSpaceA).reverse.dropWhile isSpaceA).reverse

/-- Arduino `String::charAt i` (reads at a valid index in all call sites). -/
def charAtA (l : List Char) (i : Nat) : Char :=
  l.getD i (Char.ofNat 0)

/-- Arduino `String::substring(a, b)`: the characters at indices `[a, b)`
(all call sites use `a ≤ b ≤ length`). -/
def subStrA (l : List Char) (a b : Nat) : List Char :=
  (l.take b).drop a

/-- First index of character `ch` in `l`, or `none`. -/
def findChIdx (ch : Char) : List Char → Option Nat
  | [] => none
  | c :: cs => if c = ch then some 0 else (findChIdx ch cs).map (· + 1)

/-- Arduino `String::indexOf(ch, start)`; the caller maps the `-1`
("not found") result to `l.length`, which we do directly, matching
`if (lineEnd < 0) lineEnd = payload.length();` in the source. -/
def idxOfFrom (l : List Char) (ch : Char) (start : Nat) : Nat :=
  match findChIdx ch (l.drop start) with
  | some i => start + i
  | none => l.length

/-- Arduino `String::indexOf(substring)`: index of the first occurrence of
`pat` in `hay`, or `-1` if absent. -/
def strIndexOfGo (pat : List Char) : List Char → Int → Int
  | [], _ => if pat.isEmpty then 0 else -1
  | c :: cs, i => if pat.isPrefixOf (c :: cs) then i else strIndexOfGo pat cs (i + 1)

def strIndexOf (hay pat : List Char) : Int :=
  strIndexOfGo pat hay 0

/-- Numeric value of a digit run. -/
def digitsVal (l : List Char) : Int :=
  l.foldl (fun acc c => 10 * acc + (c.toNat - '0'.toNat : Int)) 0

/-- Arduino `String::toInt` (`atol`): skip leading whitespace, optional
sign, then leading digits; `0` when there are none. -/
def atolA (l : List Char) : Int :=
  let l := l.dropWhile isSpaceA
  match l with
  | '-' :: r => -(digitsVal (r.takeWhile (·.isDigit)))
  | '+' :: r => digitsVal (r.takeWhile (·.isDigit))
  | _ => digitsVal (l.takeWhile (·.isDigit))

/-- One pass of Arduino `String::replace(pat, rep)` (non-overlapping,
resumes after each replacement; none of the firmware's replacement
strings can create a new occurrence of any of its patterns). -/
def replaceGo (pat rep : List Char) : Nat → List Char → List Char
  | 0, l => l
  | _ + 1, [] => []
  | fuel + 1, c :: cs =>
    if pat.isPrefixOf (c :: cs) then
      rep ++ replaceGo pat rep fuel ((c :: cs).drop pat.length)
    else
      c :: replaceGo pat rep fuel cs

def replaceAllA (pat rep l : List Char) : List Char :=
  replaceGo pat rep l.length l

/-! ### Model of `mktime` / `localtime_r` (fixed UTC-offset configuration)

`daysFromCivil` / `civilFromDays` are the standard Gregorian
day-number conversions; day-of-month `0` behaves like `mktime`'s field
normalization (the day before the first), which is the only
out-of-range field the firmware can produce (`struct tm t = {0}` for a
short date string). -/

/-- Days since 1970-01-01 of the civil date `y-m-d`. -/
def daysFromCivil (y m d : Int) : Int :=
  let y := if m ≤ 2 then y - 1 else y
  let era := y / 400
  let yoe := y - era * 400
  let doy := (153 * (m + (if 2 < m then -3 else 9)) + 2) / 5 + d - 1
  let doe := yoe * 365 + yoe / 4 - yoe / 100 + doy
  era * 146097 + doe - 719468

/-- Civil date `(y, m, d)` of a day number (days since 1970-01-01). -/
def civilFromDays (z : Int) : Int × Int × Int :=
  let z := z + 719468
  let era := z / 146097
  let doe := z - era * 146097
  let yoe := (doe - doe / 1460 + doe / 36524 - doe / 146096) / 365
  let y := yoe + era * 400
  let doy := doe - (365 * yoe + yoe / 4 - yoe / 100)
  let mp := (5 * doy + 2) / 153
  let d := doy - (153 * mp + 2) / 5 + 1
  let m := mp + (if mp < 10 then 3 else -9)
  (if m ≤ 2 then y + 1 else y, m, d)

/-- The fields of `struct tm` used by the firmware (same conventions:
`tm_year` is years since 1900, `tm_mon` is 0-based). -/
structure LocalTm where
  tm_year : Int
  tm_mon : Int
  tm_mday : Int
  tm_hour : Int
  tm_min : Int
  tm_sec : Int
deriving DecidableEq

/-- `mktime` under a fixed UTC offset of `off` seconds east. -/
def mkTime (off : Int) (t : LocalTm) : Int :=
  daysFromCivil (t.tm_year + 1900) (t.tm_mon + 1) t.tm_mday * 86400
    + t.tm_hour * 3600 + t.tm_min * 60 + t.tm_sec - off

/-- `localtime_r` under a fixed UTC offset of `off` seconds east. -/
def localTime (off x : Int) : LocalTm :=
  let u := x + off
  let days := u / 86400
  let sod := u % 86400
  let c := civilFromDays days
  { tm_year := c.1 - 1900, tm_mon := c.2.1 - 1, tm_mday := c.2.2,
    tm_hour := sod / 3600, tm_min := (sod % 3600) / 60, tm_sec := sod % 60 }

/-- `addDays` from `main.cpp` (lines 159-163):
`t = mktime(date); t += days * 86400; localtime_r(&t, date);`. -/
def addDays (off : Int) (date : LocalTm) (days : Int) : LocalTm :=
  localTime off (mkTime off date + days * 86400)

/-! ### Event model and ICS parser (`main.cpp` lines 64-70, 180-300)

The C++ `struct CalendarEvent` field `end` is a Lean keyword; it is
named `stop` here.  `time_t start, end` are `Int`. -/

structure CalendarEvent where
  title : List Char
  start : Int
  stop : Int
  calendarId : Nat
  allDay : Bool
deriving DecidableEq

/-- `parseICSLine` (lines 180-188): split at the first `':'` when its
position is strictly positive, trimming key and value; otherwise both
stay empty.  (`indexOf` returns `-1` as `line.length` in our model, so
"found at a positive position" is `0 < cp ∧ cp < line.length`.) -/
def parseICSLine (line : List Char) : List Char × List Char :=
  let cp := idxOfFrom line ':' 0
  if 0 < cp ∧ cp < line.length then
    (trimA (subStrA line 0 cp), trimA (subStrA line (cp + 1) line.length))
  else
    ([], [])

/-- `parseICSDateTime` (lines 190-207).  `struct tm t = {0}` is the
all-zero record; the year/month/day fields are filled when the string
has at least 8 characters, the time fields additionally when it has at
least 15 and character 8 is `'T'`. -/
def parseICSDateTime (off : Int) (dt : List Char) : Int :=
  let hasDate := 8 ≤ dt.length
  let hasTime := 8 ≤ dt.length ∧ 15 ≤ dt.length ∧ charAtA dt 8 = 'T'
  let t : LocalTm :=
    { tm_year := if hasDate then atolA (subStrA dt 0 4) - 1900 else 0,
      tm_mon := if hasDate then atolA (subStrA dt 4 6) - 1 else 0,
      tm_mday := if hasDate then atolA (subStrA dt 6 8) else 0,
      tm_hour := if hasTime then atolA (subStrA dt 9 11) else 0,
      tm_min := if hasTime then atolA (subStrA dt 11 13) else 0,
      tm_sec := if hasTime then atolA (subStrA dt 13 15) else 0 }
  mkTime off t

/-- The `SUMMARY` unescaping of lines 274-278, in source order. -/
def unescapeSummary (v : List Char) : List Char :=
  replaceAllA "\\N".toList " ".toList
    (replaceAllA "\\n".toList " ".toList
      (replaceAllA "\\;".toList ";".toList
        (replaceAllA "\\,".toList ",".toList v)))

/-- Parser state of the `fetchCalendar` loop: the `inEvent` flag, the
event record being accumulated, and the destination `events` vector. -/
structure PState where
  inEvent : Bool
  evt : CalendarEvent
  events : List CalendarEvent
deriving DecidableEq

/-- State at loop entry (lines 224-227): `inEvent = false`, `evt`
carries the feed's calendar id, `allDay = false`, remaining fields
zero-initialized, on top of the pre-existing destination vector. -/
def initPS (calId : Nat) (es : List CalendarEvent) : PState :=
  { inEvent := false,
    evt := { title := [], start := 0, stop := 0, calendarId := calId, allDay := false },
    events := es }

/-- Processing of one logical line (lines 247-289).  The two nested
`if`s of the `END:VEVENT` branch (record validity, then retention
window) are flattened into one conjunction; `inEvent` is cleared in
either case. -/
def processLine (off now : Int) (st : PState) (line : List Char) : PState :=
  if ("BEGIN:VEVENT".toList).isPrefixOf line then
    { st with
      inEvent := true,
      evt := { st.evt with title := [], start := 0, stop := 0, allDay := false } }
  else if ("END:VEVENT".toList).isPrefixOf line then
    if st.inEvent ∧ 0 < st.evt.title.length ∧ 0 < st.evt.start ∧
        now - 30 * 86400 < st.evt.stop ∧ st.evt.start < now + 60 * 86400 then
      { st with inEvent := false, events := st.events ++ [st.evt] }
    else
      { st with inEvent := false }
  else if st.inEvent then
    if (parseICSLine line).1 = "SUMMARY".toList then
      { st with evt := { st.evt with title := unescapeSummary (parseICSLine line).2 } }
    else if ("DTSTART".toList).isPrefixOf (parseICSLine line).1 then
      { st with
        evt := { st.evt with
                 start := parseICSDateTime off (parseICSLine line).2,
                 allDay := if 0 < strIndexOf (parseICSLine line).1 ("VALUE=DATE".toList)
                               ∨ (parseICSLine line).2.length = 8
                           then true else st.evt.allDay } }
    else if ("DTEND".toList).isPrefixOf (parseICSLine line).1 then
      { st with evt := { st.evt with stop := parseICSDateTime off (parseICSLine line).2 } }
    else st
  else st

def processLines (off now : Int) (st : PState) (lines : List (List Char)) : PState :=
  lines.foldl (processLine off now) st

/-! Logical-line splitting (lines 229-245): the payload is cut at `'\n'`
characters; each raw line is trimmed; while the character right after
the current line's terminator is a space or tab, the continuation's
content from two characters past the terminator up to the next `'\n'`
is appended and the line trimmed again.  The loops are written with a
fuel argument (`payload.length + 1` bounds both loop counts). -/

def contLoop (payload : List Char) : Nat → List Char → Nat → List Char × Nat
  | 0, line, lineEnd => (line, lineEnd)
  | fuel + 1, line, lineEnd =>
    if lineEnd + 1 < payload.length ∧
        (charAtA payload (lineEnd + 1) = ' ' ∨ charAtA payload (lineEnd + 1) = '\t') then
      contLoop payload fuel
        (trimA (line ++ subStrA payload (lineEnd + 2) (idxOfFrom payload '\n' (lineEnd + 1))))
        (idxOfFrom payload '\n' (lineEnd + 1))
    else
      (line, lineEnd)

def linesLoop (payload : List Char) : Nat → Nat → List (List Char)
  | 0, _ => []
  | fuel + 1, lineStart =>
    if lineStart < payload.length then
      (contLoop payload (payload.length + 1)
          (trimA (subStrA payload lineStart (idxOfFrom payload '\n' lineStart)))
          (idxOfFrom payload '\n' lineStart)).1
        :: linesLoop payload fuel
            ((contLoop payload (payload.length + 1)
                (trimA (subStrA payload lineStart (idxOfFrom payload '\n' lineStart)))
                (idxOfFrom payload '\n' lineStart)).2 + 1)
    else []

def logicalLines (payload : List Char) : List (List Char) :=
  linesLoop payload (payload.length + 1) 0

/-- `fetchCalendar` (lines 209-300).  `resp = none` models a transport
failure or non-200 status: the destination vector is returned
untouched.  On a 200 response the payload's logical lines run through
the parser state machine and the updated vector is returned.
`now` models the `time(nullptr)` read in the retention check. -/
def fetchCalendar (off now : Int) (calId : Nat) (resp : Option (List Char))
    (es : List CalendarEvent) : List CalendarEvent :=
  match resp with
  | none => es
  | some payload => (processLines off now (initPS calId es) (logicalLines payload)).events

/-- The four sequential fetches of `fetchAllCalendars` (lines 310-316),
starting from the vector just cleared by `events.clear()` (line 303). -/
def ingestAll (off now : Int) (r0 r1 r2 r3 : Option (List Char)) : List CalendarEvent :=
  fetchCalendar off now 3 r3
    (fetchCalendar off now 2 r2
      (fetchCalendar off now 1 r1
        (fetchCalendar off now 0 r0 [])))

/-- `fetchAllCalendars` (lines 302-325) as a relation on outcomes: the
published vector is the ingested one rearranged by
`std::sort(..., a.start < b.start)`.  `std::sort` guarantees only that
the result is a permutation of its input that is sorted for the
comparator (it is not a stable sort), so the model admits every such
permutation.  The pre-refresh vector does not appear: `events.clear()`
discards it before the fetches. -/
def fetchAllRel (off now : Int) (r0 r1 r2 r3 : Option (List Char))
    (out : List CalendarEvent) : Prop :=
  (ingestAll off now r0 r1 r2 r3).Perm out ∧
    out.Pairwise (fun a b => a.start ≤ b.start)

/-! ### Day query and day-view layout -/

/-- The day-start instant computed by `getEventsForDay` (lines 333-337):
the view date with `tm_hour`, `tm_min`, `tm_sec` zeroed, through
`mktime`. -/
def dayStartInstant (off : Int) (date : LocalTm) : Int :=
  mkTime off { date with tm_hour := 0, tm_min := 0, tm_sec := 0 }

/-- `getEventsForDay` (lines 330-347): the push-back loop over the
store, keeping events with `start < tDayEnd && end > tDayStart` where
`tDayEnd = tDayStart + 86400`. -/
def getEventsForDay (off : Int) (events : List CalendarEvent) (date : LocalTm) :
    List CalendarEvent :=
  let tDayStart := dayStartInstant off date
  let tDayEnd := tDayStart + 86400
  events.foldl
    (fun acc evt => if evt.start < tDayEnd ∧ tDayStart < evt.stop then acc ++ [evt] else acc)
    []

/-- One rectangle drawn by `fillRoundRect` for a timed event. -/
structure Box where
  x : Int
  y : Int
  w : Int
  h : Int
deriving DecidableEq

/-- The timed-event geometry of `drawDayView` (lines 437-533) with
`SCREEN_W = 1024`, `SCREEN_H = 600`: the day query, the all-day section
offset, `slotH = timeAreaH / 17`, and per event the `y1`/`y2`/`h`
computation with the minimum height of 22 and the bottom clamp.  Events
marked all-day or whose local start hour lies outside `[6, 22]` produce
no rectangle. -/
def dayViewBoxes (off : Int) (events : List CalendarEvent) (viewDate : LocalTm) :
    List Box :=
  let dayEvents := getEventsForDay off events viewDate
  let allDayCount := (dayEvents.filter (·.allDay)).length
  let contentY : Int := 70
  let timeStartY : Int := if 0 < allDayCount then contentY + 35 else contentY
  let timeAreaH : Int := 600 - 110 - (if 0 < allDayCount then 35 else 0)
  let slotH : Int := timeAreaH / 17
  dayEvents.filterMap (fun evt =>
    if evt.allDay then none
    else
      let evtTime := localTime off evt.start
      let evtEndTime := localTime off evt.stop
      if 6 ≤ evtTime.tm_hour ∧ evtTime.tm_hour ≤ 22 then
        let y1 := timeStartY + (evtTime.tm_hour - 6) * slotH + evtTime.tm_min * slotH / 60
        let y2 := timeStartY + (evtEndTime.tm_hour - 6) * slotH + evtEndTime.tm_min * slotH / 60
        let h := max (y2 - y1) 22
        let y1 := if y1 < timeStartY then timeStartY else y1
        let h := if 600 - 45 < y1 + h then 600 - 45 - y1 else h
        some { x := 80, y := y1, w := 1024 - 100, h := h }
      else none)

/-- Two drawn rectangles occupy disjoint horizontal bands — what a
placement of two time-overlapping events into distinct layout columns
must produce (spec "column non-collision"). -/
def horizSeparated (b1 b2 : Box) : Prop :=
  b1.x + b1.w ≤ b2.x ∨ b2.x + b2.w ≤ b1.x

/-- Two drawn rectangles overlap vertically (their time ranges collide
on screen). -/
def vertOverlap (b1 b2 : Box) : Prop :=
  b1.y < b2.y + b2.h ∧ b2.y < b1.y + b1.h

instance (b1 b2 : Box) : Decidable (horizSeparated b1 b2) := by
  unfold horizSeparated
  infer_instance

instance (b1 b2 : Box) : Decidable (vertOverlap b1 b2) := by
  unfold vertOverlap
  infer_instance

instance (off now : Int) (r0 r1 r2 r3 : Option (List Char)) (out : List CalendarEvent) :
    Decidable (fetchAllRel off now r0 r1 r2 r3 out) := by
  unfold fetchAllRel
  infer_instance

/-! ### Concrete inputs used by counterexamples and witnesses -/

/-- 2025-06-01 `h:m` local, offset 0. -/
def jun1At (h m : Int) : Int :=
  mkTime 0 { tm_year := 125, tm_mon := 5, tm_mday := 1, tm_hour := h, tm_min := m, tm_sec := 0 }

/-- The view date 2025-06-01 as a `struct tm`. -/
def jun1 : LocalTm := { tm_year := 125, tm_mon := 5, tm_mday := 1, tm_hour := 0, tm_min := 0, tm_sec := 0 }

/-- The spec's layout scenario: 9:00-10:00, 9:30-10:30, 9:45-10:15 on one
day, in this input order. -/
def scenarioEvents : List CalendarEvent :=
  [{ title := "A".toList, start := jun1At 9 0, stop := jun1At 10 0, calendarId := 0, allDay := false },
   { title := "B".toList, start := jun1At 9 30, stop := jun1At 10 30, calendarId := 1, allDay := false },
   { title := "C".toList, start := jun1At 9 45, stop := jun1At 10 15, calendarId := 2, allDay := false }]

/-- A feed whose single event has `DTEND` one hour before `DTSTART`. -/
def payloadC5 : List Char :=
  "BEGIN:VEVENT\nSUMMARY:X\nDTSTART:20250601T100000\nDTEND:20250601T090000\nEND:VEVENT\n".toList

/-- A feed with two events sharing the same `DTSTART`. -/
def payloadC7 : List Char :=
  ("BEGIN:VEVENT\nSUMMARY:Alpha\nDTSTART:20250601T090000\nDTEND:20250601T100000\nEND:VEVENT\n"
    ++ "BEGIN:VEVENT\nSUMMARY:Beta\nDTSTART:20250601T090000\nDTEND:20250601T100000\nEND:VEVENT\n").toList

/-- The first event `payloadC7` yields. -/
def evAlpha : CalendarEvent :=
  { title := "Alpha".toList,
    start := parseICSDateTime 0 "20250601T090000".toList,
    stop := parseICSDateTime 0 "20250601T100000".toList,
    calendarId := 0, allDay := false }

/-- The second event `payloadC7` yields. -/
def evBeta : CalendarEvent :=
  { title := "Beta".toList,
    start := parseICSDateTime 0 "20250601T090000".toList,
    stop := parseICSDateTime 0 "20250601T100000".toList,
    calendarId := 0, allDay := false }

/-- An event present before a refresh. -/
def evOld : CalendarEvent :=
  { title := "Old".toList, start := 1000, stop := 2000, calendarId := 0, allDay := false }

/-- A mid-record parser state holding a valid accumulated event. -/
def stC4 : PState :=
  { inEvent := true,
    evt := { title := "A".toList, start := 1, stop := 1, calendarId := 0, allDay := false },
    events := [] }

/-- A record with `SUMMARY` and `DTSTART` lines but no `DTEND` line. -/
def linesC10 : List (List Char) :=
  ["BEGIN:VEVENT".toList, "SUMMARY:Team".toList,
   "DTSTART:20250601T090000".toList, "END:VEVENT".toList]

/-! ### Helper lemmas -/

lemma foldl_pushback {α : Type} (p : α → Prop) [DecidablePred p] :
    ∀ (l acc : List α),
      l.foldl (fun acc e => if p e then acc ++ [e] else acc) acc
        = acc ++ l.filter (fun e => decide (p e))
  | [], acc => by simp
  | e :: l, acc => by
    by_cases h : p e
    · simp [List.foldl_cons, h, foldl_pushback p l (acc ++ [e])]
    · simp [List.foldl_cons, h, foldl_pushback p l acc]

lemma not_begin_of_end (line : List Char)
    (h : ("END:VEVENT".toList).isPrefixOf line = true) :
    ("BEGIN:VEVENT".toList).isPrefixOf line = false := by
  match line with
  | [] => simp [List.isPrefixOf] at h
  | c :: cs =>
    have hc : c = 'E' := by
      simp [List.isPrefixOf] at h
      exact h.1.symm
    subst hc
    simp [List.isPrefixOf]

lemma processLine_no_dtend (off now : Int) (st : PState) (l : List Char)
    (hnow : 30 * 86400 ≤ now) (hstop : st.evt.stop = 0)
    (hnd : ("DTEND".toList).isPrefixOf (parseICSLine l).1 = false) :
    (processLine off now st l).events = st.events ∧
      (processLine off now st l).evt.stop = 0 := by
  unfold processLine
  by_cases h1 : ("BEGIN:VEVENT".toList).isPrefixOf l = true
  · rw [if_pos h1]
    exact ⟨rfl, rfl⟩
  rw [if_neg h1]
  by_cases h2 : ("END:VEVENT".toList).isPrefixOf l = true
  · rw [if_pos h2]
    have hcond : ¬(st.inEvent = true ∧ 0 < st.evt.title.length ∧ 0 < st.evt.start ∧
        now - 30 * 86400 < st.evt.stop ∧ st.evt.start < now + 60 * 86400) := by
      intro hc
      exact absurd hc.2.2.2.1 (by omega)
    rw [if_neg hcond]
    exact ⟨rfl, hstop⟩
  rw [if_neg h2]
  by_cases h3 : st.inEvent = true
  · rw [if_pos h3]
    by_cases h4 : (parseICSLine l).1 = "SUMMARY".toList
    · rw [if_pos h4]
      exact ⟨rfl, hstop⟩
    rw [if_neg h4]
    by_cases h5 : ("DTSTART".toList).isPrefixOf (parseICSLine l).1 = true
    · rw [if_pos h5]
      exact ⟨rfl, hstop⟩
    rw [if_neg h5]
    by_cases h6 : ("DTEND".toList).isPrefixOf (parseICSLine l).1 = true
    · rw [hnd] at h6
      exact absurd h6 (by simp)
    rw [if_neg h6]
    exact ⟨rfl, hstop⟩
  · rw [if_neg h3]
    exact ⟨rfl, hstop⟩

/-! ### C3 -/

/-- **C3** (confirmed).  `getEventsForDay` (lines 330-347) returns
exactly the events `e` with `e.start < dayEnd ∧ e.end > dayStart`,
where `dayStart` is the view date at local midnight and
`dayEnd = dayStart + 86400` — half-open overlap, so an event ending
exactly at midnight is excluded from the next day and one starting
exactly at midnight is included — and the returned sequence is a
sublist of the store, hence preserves the store's order. -/
theorem c3_day_query (off : Int) (events : List CalendarEvent) (date : LocalTm) :
    (∀ e, e ∈ getEventsForDay off events date ↔
        e ∈ events ∧ e.start < dayStartInstant off date + 86400 ∧
          dayStartInstant off date < e.stop)
      ∧ (getEventsForDay off events date).Sublist events := by
  have hrw : getEventsForDay off events date
      = events.filter (fun e =>
          decide (e.start < dayStartInstant off date + 86400 ∧
            dayStartInstant off date < e.stop)) := by
    unfold getEventsForDay
    rw [foldl_pushback
      (fun e => e.start < dayStartInstant off date + 86400 ∧ dayStartInstant off date < e.stop)
      events []]
    simp
  constructor
  · intro e
    rw [hrw, List.mem_filter]
    simp
  · rw [hrw]
    exact List.filter_sublist events

/-! ### C4 -/

/-- **C4** (confirmed).  At an `END:VEVENT` line closing an open record
(lines 254-267), the accumulated event is appended to the event set if
and only if its title is non-empty, its start is positive, and its
interval meets the retention window: `end > now − 30·86400` and
`start < now + 60·86400` — i.e. the half-open interval `[start, end)`
intersects the half-open window `[now − 30 d, now + 60 d)`.  In
particular an event entirely before `now − 30 d` (`end ≤ now − 30 d`)
or entirely after `now + 60 d` (`start ≥ now + 60 d`) is excluded,
while one straddling either boundary is retained. -/
theorem c4_retention (off now : Int) (st : PState) (line : List Char)
    (hline : ("END:VEVENT".toList).isPrefixOf line = true)
    (hin : st.inEvent = true) :
    (processLine off now st line).events = st.events ++ [st.evt] ↔
      (st.evt.title ≠ [] ∧ 0 < st.evt.start ∧
        now - 30 * 86400 < st.evt.stop ∧ st.evt.start < now + 60 * 86400) := by
  have hb := not_begin_of_end line hline
  unfold processLine
  rw [hb]
  simp only [Bool.false_eq_true, if_false, hline, if_true, hin, true_and]
  by_cases hC : 0 < st.evt.title.length ∧ 0 < st.evt.start ∧
      now - 30 * 86400 < st.evt.stop ∧ st.evt.start < now + 60 * 86400
  · rw [if_pos hC]
    simp only [true_iff]
    exact ⟨List.length_pos.mp hC.1, hC.2⟩
  · rw [if_neg hC]
    simp only [List.length_pos] at hC
    exact ⟨fun h => absurd h (by simp), fun h => absurd h hC⟩

/-- Witness for `c4_retention`: a concrete valid record at a concrete
`END:VEVENT` line. -/
theorem c4_retention_witness :
    (processLine 0 0 stC4 ("END:VEVENT".toList)).events = stC4.events ++ [stC4.evt] ↔
      (stC4.evt.title ≠ [] ∧ 0 < stC4.evt.start ∧
        0 - 30 * 86400 < stC4.evt.stop ∧ stC4.evt.start < 0 + 60 * 86400) :=
  c4_retention 0 0 stC4 ("END:VEVENT".toList) (by decide) (by decide)

/-! ### C10 -/

/-- **C10** (confirmed).  A record containing no `DTEND` line leaves
`evt.end` at `0`, so at `END:VEVENT` the retention test
`end > now − 30·86400` fails whenever ingestion happens at or after 30
days past the epoch: processing any such line sequence adds nothing to
the event set.  (The claim's `SUMMARY`/`DTSTART` lines are covered: the
statement holds for every line sequence without a `DTEND`-keyed
line.) -/
theorem c10_no_dtend (off now : Int) (st : PState) (lines : List (List Char))
    (hnow : 30 * 86400 ≤ now) (hstop : st.evt.stop = 0)
    (hnd : ∀ l ∈ lines, ("DTEND".toList).isPrefixOf (parseICSLine l).1 = false) :
    (processLines off now st lines).events = st.events ∧
      (processLines off now st lines).evt.stop = 0 := by
  induction lines generalizing st with
  | nil => exact ⟨rfl, hstop⟩
  | cons l ls ih =>
    have hstep := processLine_no_dtend off now st l hnow hstop
      (hnd l (List.mem_cons_self l ls))
    have hrest := ih (processLine off now st l) hstep.2
      (fun x hx => hnd x (List.mem_cons_of_mem l hx))
    exact ⟨hrest.1.trans hstep.1, hrest.2⟩

/-- Witness for `c10_no_dtend`: the concrete `SUMMARY` + `DTSTART`
record of `linesC10`, ingested at `now = 30` days, adds no event. -/
theorem c10_no_dtend_witness :
    (processLines 0 2592000 (initPS 0 []) linesC10).events = (initPS 0 []).events ∧
      (processLines 0 2592000 (initPS 0 []) linesC10).evt.stop = 0 :=
  c10_no_dtend 0 2592000 (initPS 0 []) linesC10 (by decide) (by decide) (by decide)

/-! ### C9 -/

lemma subStrA_append_of_le (l r : List Char) (a b : Nat) (h : b ≤ l.length) :
    subStrA (l ++ r) a b = subStrA l a b := by
  unfold subStrA
  rw [List.take_append_eq_append_take, Nat.sub_eq_zero_of_le h]
  simp

/-- **C9** (confirmed).  `parseICSDateTime` (lines 190-207) reads only
the first 15 characters of a date-time string: for any 15-character
string — so for every string of the form `YYYYMMDDTHHMMSS` — appending
the UTC marker `'Z'` does not change the parsed instant.  The `Z` is
ignored and the timestamp is interpreted as naive local time through
`mktime`. -/
theorem c9_utc_marker_ignored (off : Int) (s : List Char) (hlen : s.length = 15) :
    parseICSDateTime off (s ++ ['Z']) = parseICSDateTime off s := by
  have hc : charAtA (s ++ ['Z']) 8 = charAtA s 8 := by
    unfold charAtA
    exact List.getD_append s ['Z'] (Char.ofNat 0) 8 (by omega)
  have h04 := subStrA_append_of_le s ['Z'] 0 4 (by omega)
  have h46 := subStrA_append_of_le s ['Z'] 4 6 (by omega)
  have h68 := subStrA_append_of_le s ['Z'] 6 8 (by omega)
  have h911 := subStrA_append_of_le s ['Z'] 9 11 (by omega)
  have h1113 := subStrA_append_of_le s ['Z'] 11 13 (by omega)
  have h1315 := subStrA_append_of_le s ['Z'] 13 15 (by omega)
  have hL : (s ++ ['Z']).length = 16 := by simp [hlen]
  simp only [parseICSDateTime, hL, hlen, hc, h04, h46, h68, h911, h1113, h1315]
  norm_num

/-- Witness for `c9_utc_marker_ignored` at `20250601T090000`. -/
theorem c9_utc_marker_ignored_witness :
    parseICSDateTime 0 ("20250601T090000".toList ++ ['Z'])
      = parseICSDateTime 0 "20250601T090000".toList :=
  c9_utc_marker_ignored 0 ("20250601T090000".toList) (by decide)

/-! ### C8 -/

/-- **C8** (confirmed).  In Week mode the Prev and Next arrows run
`addDays(&viewDate, -7)` and `addDays(&viewDate, +7)` (lines 753-785);
`addDays` is `localtime_r(mktime(date) + days·86400)` (lines 159-163).
For any anchor that is a normalized local-time record (`d = localtime t`
with `mktime d = t`), and given the `mktime`/`localtime` round-trip at
the shifted instant — the libc contract under the firmware's fixed
UTC-offset configuration — Prev then Next returns the anchor exactly:
the ±7-day shifts cancel. -/
theorem c8_week_prev_next (off t : Int) (d : LocalTm)
    (hd : d = localTime off t) (h1 : mkTime off d = t)
    (h2 : mkTime off (localTime off (t - 7 * 86400)) = t - 7 * 86400) :
    addDays off (addDays off d (-7)) 7 = d := by
  subst hd
  unfold addDays
  rw [h1]
  have e1 : t + (-7) * 86400 = t - 7 * 86400 := by ring
  rw [e1, h2]
  have e2 : t - 7 * 86400 + 7 * 86400 = t := by ring
  rw [e2]

/-- Witness for `c8_week_prev_next` at the anchor `localtime 1700000000`
(2023-11-14): the round-trip hypotheses hold by computation. -/
theorem c8_week_prev_next_witness :
    addDays 0 (addDays 0 (localTime 0 1700000000) (-7)) 7 = localTime 0 1700000000 :=
  c8_week_prev_next 0 1700000000 (localTime 0 1700000000) rfl (by decide) (by decide)

/-! ### C2 -/

/-- **C2** (corrected) — counterexample.  For the spec scenario
(9:00-10:00, 9:30-10:30, 9:45-10:15 on 2025-06-01) `drawDayView`
produces three rectangles that all share `x = 80` and
`w = 1024 − 100 = 924`: no two are horizontally separated although
they overlap vertically.  A layout that assigned the three events
`columnCount = 3` with pairwise-distinct `columnIndex ∈ {0,1,2}` would
have to draw them in disjoint horizontal bands (spec "column
non-collision"), so the claim is false of the code: `drawDayView`
performs no column assignment at all. -/
theorem c2_counterexample :
    dayViewBoxes 0 scenarioEvents jun1 =
        [{ x := 80, y := 154, w := 924, h := 28 },
         { x := 80, y := 168, w := 924, h := 28 },
         { x := 80, y := 175, w := 924, h := 22 }] ∧
      ¬ horizSeparated { x := 80, y := 154, w := 924, h := 28 } { x := 80, y := 168, w := 924, h := 28 } ∧
      ¬ horizSeparated { x := 80, y := 154, w := 924, h := 28 } { x := 80, y := 175, w := 924, h := 22 } ∧
      ¬ horizSeparated { x := 80, y := 168, w := 924, h := 28 } { x := 80, y := 175, w := 924, h := 22 } ∧
      vertOverlap { x := 80, y := 154, w := 924, h := 28 } { x := 80, y := 168, w := 924, h := 28 } ∧
      vertOverlap { x := 80, y := 154, w := 924, h := 28 } { x := 80, y := 175, w := 924, h := 22 } ∧
      vertOverlap { x := 80, y := 168, w := 924, h := 28 } { x := 80, y := 175, w := 924, h := 22 } := by
  decide

/-- **C2** (corrected) — amended.  `drawDayView` draws every timed
event at the fixed offset `x = 80` with the full content width
`w = 924` (one shared column); for the scenario the three rectangles
are, deterministically in input order, exactly the full-width boxes
below. -/
theorem c2_full_width_layout :
    dayViewBoxes 0 scenarioEvents jun1 =
      [{ x := 80, y := 154, w := 924, h := 28 },
       { x := 80, y := 168, w := 924, h := 28 },
       { x := 80, y := 175, w := 924, h := 22 }] := by
  decide

/-! ### C5 -/

/-- **C5** (corrected) — counterexample.  The feed `payloadC5` has
`DTEND` one hour before `DTSTART`; ingestion at `now` = the event's
start publishes exactly one event, and it violates `start ≤ end`. -/
theorem c5_counterexample :
    ((fetchCalendar 0 (parseICSDateTime 0 "20250601T100000".toList) 0 (some payloadC5) []).all
        (fun e => decide (e.start ≤ e.stop)) = false) ∧
      (fetchCalendar 0 (parseICSDateTime 0 "20250601T100000".toList) 0 (some payloadC5) []).length
        = 1 := by
  decide

/-- **C5** (corrected) — amended.  Text-feed ingestion never validates
`start ≤ end`: processing any line either leaves the event set
unchanged or appends the accumulated record verbatim (its `start` and
`stop` are the parsed `DTSTART`/`DTEND` values as accumulated), so the
invariant holds exactly when the feed's retained records satisfy it,
and a feed with `DTEND` before `DTSTART` publishes an event with
`end < start`. -/
theorem c5_verbatim_append (off now : Int) (st : PState) (line : List Char) :
    (processLine off now st line).events = st.events ∨
      (processLine off now st line).events = st.events ++ [st.evt] := by
  unfold processLine
  split_ifs <;> simp

/-! ### C1 -/

/-- **C1** (corrected) — counterexample.  `fetchAllCalendars` (lines
302-325) runs `events.clear()` before any fetch, so when every feed
fails the refresh publishes the empty set: with the pre-refresh
collection `[evOld]`, the outcome `[evOld]` — what the claim requires —
is not a possible result of the refresh. -/
theorem c1_counterexample : ¬ fetchAllRel 0 0 none none none none [evOld] := by
  intro h
  have h1 := h.1
  have he : ingestAll 0 0 none none none none = [] := rfl
  rw [he] at h1
  exact absurd h1.length_eq (by decide)

/-- **C1** (corrected) — amended.  A failed fetch for one feed leaves
the event vector exactly as that fetch received it (the feed
contributes nothing); but `fetchAllCalendars` clears the published
collection before fetching, so a refresh in which every feed fails
publishes the empty set rather than retaining the prior collection. -/
theorem c1_failed_fetch :
    (∀ (off now : Int) (calId : Nat) (es : List CalendarEvent),
        fetchCalendar off now calId none es = es) ∧
      (∀ (off now : Int) (out : List CalendarEvent),
        fetchAllRel off now none none none none out → out = []) := by
  constructor
  · intro off now calId es
    rfl
  · intro off now out h
    have h1 := h.1
    have he : ingestAll off now none none none none = [] := rfl
    rw [he] at h1
    exact h1.symm.eq_nil

/-- Witness for `c1_failed_fetch`: concrete instances of both parts. -/
theorem c1_failed_fetch_witness :
    (fetchCalendar 0 0 0 none [evOld] = [evOld]) ∧ (([] : List CalendarEvent) = []) :=
  ⟨c1_failed_fetch.1 0 0 0 [evOld],
   c1_failed_fetch.2 0 0 [] ⟨List.Perm.refl [], List.Pairwise.nil⟩⟩

/-! ### C7 -/

set_option maxRecDepth 100000 in
/-- **C7** (corrected) — counterexample.  `payloadC7` ingests, in source
order, `[evAlpha, evBeta]` with equal start times.  The publish step is
`std::sort` with comparator `a.start < b.start`, which guarantees only
a sorted permutation (it is not stable), so the reordered outcome
`[evBeta, evAlpha]` satisfies the model of the refresh — the relative
source order of equal-start events is not preserved. -/
theorem c7_counterexample :
    ingestAll 0 (parseICSDateTime 0 "20250601T090000".toList) (some payloadC7) none none none
        = [evAlpha, evBeta] ∧
      evAlpha.start = evBeta.start ∧ evAlpha ≠ evBeta ∧
      fetchAllRel 0 (parseICSDateTime 0 "20250601T090000".toList) (some payloadC7) none none none
        [evBeta, evAlpha] := by
  decide

/-- **C7** (corrected) — amended.  After all feeds are ingested the
published set is a permutation of the ingested events that is sorted by
`start` ascending — with no stability guarantee for equal starts — and
at least one such outcome always exists (a stable merge sort by `start`
satisfies the `std::sort` contract). -/
theorem c7_sorted_permutation (off now : Int) (r0 r1 r2 r3 : Option (List Char))
    (out : List CalendarEvent) (h : fetchAllRel off now r0 r1 r2 r3 out) :
    out.Pairwise (fun a b => a.start ≤ b.start) ∧
      out.Perm (ingestAll off now r0 r1 r2 r3) ∧
      fetchAllRel off now r0 r1 r2 r3
        ((ingestAll off now r0 r1 r2 r3).mergeSort (fun a b => decide (a.start ≤ b.start))) := by
  refine ⟨h.2, h.1.symm, (List.mergeSort_perm _ _).symm, ?_⟩
  have hp := @List.sorted_mergeSort CalendarEvent
    (fun a b => decide (a.start ≤ b.start))
    (fun a b c hab hbc => by
      simp only [decide_eq_true_eq] at *
      omega)
    (fun a b => by
      simp only [Bool.or_eq_true, decide_eq_true_eq]
      omega)
    (ingestAll off now r0 r1 r2 r3)
  exact hp.imp (fun hab => by simpa using hab)

/-- Witness for `c7_sorted_permutation` at the all-feeds-failed refresh
with the empty outcome. -/
theorem c7_sorted_permutation_witness :
    ([] : List CalendarEvent).Pairwise (fun a b => a.start ≤ b.start) ∧
      ([] : List CalendarEvent).Perm (ingestAll 0 0 none none none none) ∧
      fetchAllRel 0 0 none none none none
        ((ingestAll 0 0 none none none none).mergeSort (fun a b => decide (a.start ≤ b.start))) :=
  c7_sorted_permutation 0 0 none none none none []
    ⟨List.Perm.refl [], List.Pairwise.nil⟩

/-! ### C6 -/

lemma findChIdx_eq_none {ch : Char} : ∀ {l : List Char}, ch ∉ l → findChIdx ch l = none
  | [], _ => rfl
  | c :: cs, h => by
    have hc : ¬ c = ch := fun e => h (e ▸ List.mem_cons_self c cs)
    simp [findChIdx, hc, findChIdx_eq_none (fun hm => h (List.mem_cons_of_mem c hm))]

lemma findChIdx_append (ch : Char) : ∀ (b r : List Char), ch ∉ b →
    findChIdx ch (b ++ ch :: r) = some b.length
  | [], _, _ => by simp [findChIdx]
  | c :: b, r, h => by
    have hc : ¬ c = ch := fun e => h (e ▸ List.mem_cons_self c b)
    simp [findChIdx, hc, findChIdx_append ch b r (fun hm => h (List.mem_cons_of_mem c hm))]

lemma idxOfFrom_zero_append (b r : List Char) (ch : Char) (hb : ch ∉ b) :
    idxOfFrom (b ++ ch :: r) ch 0 = b.length := by
  unfold idxOfFrom
  rw [List.drop_zero, findChIdx_append ch b r hb]
  simp

lemma idxOfFrom_eq_length (l : List Char) (ch : Char) (start : Nat)
    (h : ch ∉ l.drop start) : idxOfFrom l ch start = l.length := by
  unfold idxOfFrom
  rw [findChIdx_eq_none h]

lemma subStrA_left (l r : List Char) : subStrA (l ++ r) 0 l.length = l := by
  unfold subStrA
  rw [List.take_left, List.drop_zero]

lemma subStrA_to_length (l : List Char) (a : Nat) : subStrA l a l.length = l.drop a := by
  unfold subStrA
  rw [List.take_length]

lemma charAtA_mid (b : List Char) (x : Char) (r : List Char) :
    charAtA (b ++ x :: r) b.length = x := by
  unfold charAtA
  rw [List.getD_append_right _ _ _ _ (le_refl _)]
  simp

lemma contLoop_exit (payload : List Char) (fuel : Nat) (line : List Char) (le : Nat)
    (h : ¬ le + 1 < payload.length) :
    contLoop payload fuel line le = (line, le) := by
  cases fuel with
  | zero => rfl
  | succ n =>
    unfold contLoop
    rw [if_neg (fun hc => h hc.1)]

lemma linesLoop_exit (payload : List Char) (fuel start : Nat)
    (h : ¬ start < payload.length) :
    linesLoop payload fuel start = [] := by
  cases fuel with
  | zero => rfl
  | succ n =>
    unfold linesLoop
    rw [if_neg h]

/-- **C6** (corrected) — counterexample.  The payload has the physical
base line `SUMMARY:AB ` (trailing space) followed by the continuation
` CD`.  Appending the continuation verbatim after stripping exactly one
leading whitespace character would produce `SUMMARY:AB CD`; the code
trims the base line (and the combined line) and produces
`SUMMARY:ABCD`, so the whitespace at the fold boundary is lost. -/
theorem c6_counterexample :
    logicalLines "SUMMARY:AB \n CD".toList = ["SUMMARY:ABCD".toList] ∧
      "SUMMARY:ABCD".toList ≠ "SUMMARY:AB ".toList ++ "CD".toList := by
  decide

/-- **C6** (corrected) — amended.  A physical line beginning with a
space or tab is appended to the previous logical line after stripping
exactly one leading whitespace character, but the base line and the
combined line are additionally whitespace-trimmed (`line.trim()`,
lines 235/243).  Hence for a base line `b` in trimmed form and a
continuation whose post-marker content `c` leaves `b ++ c` in trimmed
form (in particular whenever the fold boundary does not abut further
whitespace), the payload `b`, newline, one space, `c` reassembles into
the single logical line `b ++ c` — a `SUMMARY` folded this way
reassembles exactly. -/
theorem c6_folding (b c : List Char)
    (hbn : '\n' ∉ b) (hcn : '\n' ∉ c)
    (htb : trimA b = b) (htbc : trimA (b ++ c) = b ++ c) :
    logicalLines (b ++ '\n' :: ' ' :: c) = [b ++ c] := by
  have hlen : (b ++ '\n' :: ' ' :: c).length = b.length + c.length + 2 := by
    simp [List.length_append]
    omega
  have h1 : idxOfFrom (b ++ '\n' :: ' ' :: c) '\n' 0 = b.length :=
    idxOfFrom_zero_append b (' ' :: c) '\n' hbn
  have h2 : trimA (subStrA (b ++ '\n' :: ' ' :: c) 0 b.length) = b := by
    rw [subStrA_left b ('\n' :: ' ' :: c)]
    exact htb
  have hc1 : b.length + 1 < (b ++ '\n' :: ' ' :: c).length := by
    rw [hlen]
    omega
  have hc2 : charAtA (b ++ '\n' :: ' ' :: c) (b.length + 1) = ' ' := by
    have e : b ++ '\n' :: ' ' :: c = (b ++ ['\n']) ++ ' ' :: c := by simp
    have e2 : b.length + 1 = (b ++ ['\n']).length := by simp
    rw [e, e2, charAtA_mid]
  have hdrop : '\n' ∉ (b ++ '\n' :: ' ' :: c).drop (b.length + 1) := by
    have e : b ++ '\n' :: ' ' :: c = (b ++ ['\n']) ++ ' ' :: c := by simp
    have e2 : b.length + 1 = (b ++ ['\n']).length := by simp
    rw [e, e2, List.drop_left]
    intro hm
    rcases List.mem_cons.mp hm with h | h
    · exact absurd h (by decide)
    · exact hcn h
  have h3 : idxOfFrom (b ++ '\n' :: ' ' :: c) '\n' (b.length + 1)
      = (b ++ '\n' :: ' ' :: c).length :=
    idxOfFrom_eq_length _ _ _ hdrop
  have h4 : subStrA (b ++ '\n' :: ' ' :: c) (b.length + 2) (b ++ '\n' :: ' ' :: c).length
      = c := by
    rw [subStrA_to_length]
    have e : b ++ '\n' :: ' ' :: c = (b ++ ['\n', ' ']) ++ c := by simp
    have e2 : b.length + 2 = (b ++ ['\n', ' ']).length := by simp
    rw [e, e2, List.drop_left]
  have hcont : contLoop (b ++ '\n' :: ' ' :: c) ((b ++ '\n' :: ' ' :: c).length + 1)
      b b.length = (b ++ c, (b ++ '\n' :: ' ' :: c).length) := by
    unfold contLoop
    rw [if_pos ⟨hc1, Or.inl hc2⟩, h3, h4, htbc]
    exact contLoop_exit _ _ _ _ (by omega)
  have hpos : 0 < (b ++ '\n' :: ' ' :: c).length := by
    rw [hlen]
    omega
  unfold logicalLines linesLoop
  rw [if_pos hpos, h1, h2, hcont]
  show (b ++ c) :: linesLoop (b ++ '\n' :: ' ' :: c) (b ++ '\n' :: ' ' :: c).length
      ((b ++ '\n' :: ' ' :: c).length + 1) = [b ++ c]
  rw [linesLoop_exit _ _ _ (by omega)]

/-- Witness for `c6_folding`: `SUMMARY:Team` folded with continuation
content `Sync` reassembles into `SUMMARY:TeamSync`. -/
theorem c6_folding_witness :
    logicalLines ("SUMMARY:Team".toList ++ '\n' :: ' ' :: "Sync".toList)
      = ["SUMMARY:Team".toList ++ "Sync".toList] :=
  c6_folding ("SUMMARY:Team".toList) ("Sync".toList)
    (by decide) (by decide) (by decide) (by decide)

end FamilyCal
